import Mathlib

/-!
Shallow embedding of the quiz/task progression engine of
`src/frontend/public/aware-main/script.js` (the "Cyber Trap Room" page).

The engine state lives in the module-level variables `score`,
`answeredCorrectlyCount`, `answeredQuizIds`, `unlockedTaskIds` and in the
DOM (per-task `locked`/`active` classes, per-quiz `answered` class, the
`disabled` flag of each `.btn-next` button, and the `data-questions-total`
attribute of each task).  Persistence goes through three `localStorage`
slots.  Purely presentational effects (CSS classes `correct`/`incorrect`
on options, cursors, feedback boxes, badges, the progress-bar width and
the modal text) are not part of the model; every state-bearing effect is.

JavaScript numbers appearing in the engine are integers or `NaN`
(`parseInt` results), modelled by `JSNum`.  `localStorage` stores strings;
the two JSON slots are modelled by the outcome of `JSON.parse` on their
content (a well-formed array of strings, an empty string, or content on
which `JSON.parse` throws), and the score slot by the outcome of
`parseInt` on its content, which is everything the program observes.
-/

/-- A JavaScript number as it occurs in the engine: an integer or `NaN`. -/
inductive JSNum where
  | nan : JSNum
  | int (i : Int) : JSNum
deriving DecidableEq

/-- JavaScript `x + 1` / `x++` on a `JSNum` (`NaN + 1 = NaN`). -/
def jsInc : JSNum → JSNum
  | .nan => .nan
  | .int i => .int (i + 1)

/-- JavaScript `a >= b`: any comparison against `NaN` is `false`. -/
def jsGe : JSNum → JSNum → Bool
  | .int a, .int b => decide (b ≤ a)
  | _, _ => false

/-- Order used to state score monotonicity (`NaN` only relates to `NaN`). -/
def jsLe : JSNum → JSNum → Prop
  | .nan, .nan => True
  | .int a, .int b => a ≤ b
  | _, _ => False

/-- The decimal digit character for `n < 10` (chars `48 + n`). -/
def digitChar (n : Nat) : Char := Char.ofNat (48 + n)

/-- Numeric value of a decimal digit character. -/
def digitVal (c : Char) : Nat := c.toNat - 48

/-- Decimal digits of `n`, most significant first; `fuel` bounds the
recursion depth (any `fuel > n` is enough). -/
def natCharsGo : Nat → Nat → List Char
  | 0, _ => []
  | fuel + 1, n =>
    if n < 10 then [digitChar n]
    else natCharsGo fuel (n / 10) ++ [digitChar (n % 10)]

/-- Decimal digits of `n`, most significant first. -/
def natChars (n : Nat) : List Char := natCharsGo (n + 1) n

/-- Decimal string of a natural number (JavaScript number-to-string). -/
def natToStr (n : Nat) : String := String.mk (natChars n)

/-- Characters of the JavaScript string conversion of an integer. -/
def intChars : Int → List Char
  | .ofNat n => natChars n
  | .negSucc n => '-' :: natChars (n + 1)

/-- Characters of the JavaScript string conversion of a `JSNum`
(`NaN` prints as the three characters `NaN`). -/
def jsNumChars : JSNum → List Char
  | .nan => ['N', 'a', 'N']
  | .int i => intChars i

/-- Value of a run of decimal digit characters read left to right. -/
def digitsVal (l : List Char) : Nat :=
  l.foldl (fun a c => a * 10 + digitVal c) 0

/-- `parseInt` on the character list after whitespace/sign handling:
the leading digit run, or `NaN` when there is none. -/
def parseIntCore (cs : List Char) : JSNum :=
  let ds := cs.takeWhile Char.isDigit
  if ds.isEmpty then .nan else .int (Int.ofNat (digitsVal ds))

/-- JavaScript `parseInt` (radix 10) on a character list: skip leading
spaces, optional sign, then the leading decimal-digit run; `NaN` when no
digit follows.  (Hex prefixes and non-space whitespace never occur in the
strings this page feeds to `parseInt` and are not modelled.) -/
def parseIntChars (cs : List Char) : JSNum :=
  match cs.dropWhile (fun c => c = ' ') with
  | [] => .nan
  | c :: rest =>
    if c = '-' then
      match parseIntCore rest with
      | .nan => .nan
      | .int i => .int (-i)
    else if c = '+' then parseIntCore rest
    else parseIntCore (c :: rest)

/-- JavaScript `parseInt` (radix 10) on a string. -/
def parseIntJS (s : String) : JSNum := parseIntChars s.data

/-- `id.replace('task', '')` as used on element ids: all ids on this page
contain `task` only as their leading prefix, so the replacement strips
that prefix (and leaves strings without the prefix unchanged). -/
def jsReplaceTask (s : String) : String :=
  if s.data.take 4 = ['t', 'a', 's', 'k'] then String.mk (s.data.drop 4) else s

/-- The canonical id string of the `n`-th task, `"task" ++ n`. -/
def taskIdStr (n : Nat) : String :=
  String.mk ('t' :: 'a' :: 's' :: 'k' :: natChars n)

/-- The template literal `` `task${v}` `` for a `JSNum` `v`. -/
def taskIdOfNum (v : JSNum) : String :=
  String.mk ('t' :: 'a' :: 's' :: 'k' :: jsNumChars v)

/-- The composite quiz key `` `${taskId}_${quizIdx}` `` (script.js:100). -/
def quizKey (taskId : String) (quizIdx : Nat) : String :=
  taskId ++ "_" ++ natToStr quizIdx

/-- JavaScript `Set.add` on an insertion-ordered set modelled as a
duplicate-free list: append the element unless already present. -/
def addToSet (l : List String) (x : String) : List String :=
  if x ∈ l then l else l ++ [x]

/-- `new Set(array)`: keep the first occurrence of each element,
in order. -/
def dedup (l : List String) : List String := l.foldl addToSet []

/-- What the engine observes of the score slot's stored string:
`num i` stands for a string `parseInt` reads as `i` (as written by
`setItem(LS_SCORE, score)` for an integer score), `nanStr` for a
non-empty string on which `parseInt` yields `NaN` (as written for a `NaN`
score, or corrupt content), `emptyStr` for the empty string (falsy, so
the `savedScore ? … : 0` guard takes the `0` branch). -/
inductive NumStr where
  | num (i : Int) : NumStr
  | nanStr : NumStr
  | emptyStr : NumStr
deriving DecidableEq

/-- What the engine observes of a JSON slot's stored string: `ok l` is a
well-formed JSON array of strings that `JSON.parse` reads back as `l` (as
written by `JSON.stringify(Array.from(set))`), `bad` is non-empty content
on which `JSON.parse` throws, `emptyStr` the empty string (falsy, so the
`saved ? … : new Set()` guard takes the empty branch). -/
inductive JsonStr where
  | ok (l : List String) : JsonStr
  | bad : JsonStr
  | emptyStr : JsonStr
deriving DecidableEq

/-- The three `localStorage` slots (`aware_score`, `aware_answered`,
`aware_unlocked`); `none` models an absent key. `setItemCount` counts the
`localStorage.setItem` calls performed, to state that a command performs
no persistence write. -/
structure Storage where
  scoreSlot : Option NumStr
  answeredSlot : Option JsonStr
  unlockedSlot : Option JsonStr
  setItemCount : Nat
deriving DecidableEq

/-- `localStorage.removeItem` on all three keys (the reset handler,
script.js:68-70). -/
def clearStorage (st : Storage) : Storage :=
  { st with scoreSlot := none, answeredSlot := none, unlockedSlot := none }

/-- A `.quiz` container; `answered` is its `answered` CSS class. -/
structure QuizDom where
  answered : Bool
deriving DecidableEq

/-- A `.task` element: its `id`, its `data-questions-total` attribute
(`none` when absent, otherwise classified by what `parseInt` makes of
it), its `locked` and `active` classes, whether it has a `.btn-next`
button and that button's `disabled` flag, and its quiz containers in
document order. -/
structure TaskDom where
  id : String
  questionsTotal : Option NumStr
  locked : Bool
  active : Bool
  hasNext : Bool
  nextDisabled : Bool
  quizzes : List QuizDom
deriving DecidableEq

/-- The engine's mutable state: the module variables of script.js plus
the state-bearing parts of the task markup. -/
structure EngineState where
  score : JSNum
  answeredCorrectlyCount : Nat
  answeredQuizIds : List String
  unlockedTaskIds : List String
  tasks : List TaskDom
deriving DecidableEq

/-- The state at script start, before `restoreStateFromLocalStorage`
(script.js:11-17): zero score, empty sets, tasks as delivered by the
static markup. -/
def freshState (markup : List TaskDom) : EngineState :=
  { score := .int 0
    answeredCorrectlyCount := 0
    answeredQuizIds := []
    unlockedTaskIds := []
    tasks := markup }

/-- `parseInt(currentTask.dataset.questionsTotal)`:
`parseInt(undefined)` and any non-numeric content give `NaN`. -/
def parseDataset : Option NumStr → JSNum
  | none => .nan
  | some .emptyStr => .nan
  | some .nanStr => .nan
  | some (.num i) => .int i

/-- The completion test `answeredInTask >= totalInTask`
(script.js:134 and script.js:270) on a task element. -/
def advanceEligible (t : TaskDom) : Bool :=
  jsGe (.int (Int.ofNat ((t.quizzes.filter (fun q => q.answered)).length)))
    (parseDataset t.questionsTotal)

/-- String conversion of the score as written by
`setItem(LS_SCORE, score)`, classified by what `parseInt` reads back. -/
def numStrOfScore : JSNum → NumStr
  | .nan => .nanStr
  | .int i => .num i

/-- `saveStateToLocalStorage` (script.js:212-216): write all three slots. -/
def saveStateToLocalStorage (s : EngineState) (st : Storage) : Storage :=
  { scoreSlot := some (numStrOfScore s.score)
    answeredSlot := some (.ok s.answeredQuizIds)
    unlockedSlot := some (.ok s.unlockedTaskIds)
    setItemCount := st.setItemCount + 3 }

/-- `savedScore ? parseInt(savedScore) : 0` (script.js:222-223). -/
def parseScoreSlot : Option NumStr → JSNum
  | none => .int 0
  | some .emptyStr => .int 0
  | some (.num i) => .int i
  | some .nanStr => .nan

/-- `saved ? new Set(JSON.parse(saved)) : new Set()` on a JSON slot that
did not throw (`bad` is handled by the caller). -/
def jsonSlotList : Option JsonStr → List String
  | none => []
  | some .emptyStr => []
  | some (.ok l) => dedup l
  | some .bad => []

/-- `restoreStateFromLocalStorage` (script.js:221-229).  The returned
`Bool` is `true` when `JSON.parse` threw: the exception propagates out of
the function, so later assignments are skipped and the corresponding
variables keep their current values. -/
def restoreStateFromLocalStorage (s : EngineState) (st : Storage) :
    EngineState × Bool :=
  let s1 := { s with score := parseScoreSlot st.scoreSlot }
  if st.answeredSlot = some .bad then (s1, true)
  else
    let ans := jsonSlotList st.answeredSlot
    let s2 := { s1 with answeredQuizIds := ans, answeredCorrectlyCount := ans.length }
    if st.unlockedSlot = some .bad then (s2, true)
    else ({ s2 with unlockedTaskIds := jsonSlotList st.unlockedSlot }, false)

/-- The quiz-restoration loop body of `restoreUIState`
(script.js:236-253) on one task: mark each quiz whose composite key is in
`answeredQuizIds` as answered; `i` is the index of the first quiz. -/
def restoreQuizzesFrom (answered : List String) (tid : String) :
    Nat → List QuizDom → List QuizDom
  | _, [] => []
  | i, q :: qs =>
    (if quizKey tid i ∈ answered then { q with answered := true } else q)
      :: restoreQuizzesFrom answered tid (i + 1) qs

/-- `restoreUIState` (script.js:234-275): restore quiz answered marks,
unlock tasks in `unlockedTaskIds`, enable the next button of each task
passing the completion test. -/
def restoreUIState (s : EngineState) : EngineState :=
  let tasks1 := s.tasks.map fun t =>
    { t with quizzes := restoreQuizzesFrom s.answeredQuizIds t.id 0 t.quizzes }
  let tasks2 := tasks1.map fun t =>
    if t.id ∈ s.unlockedTaskIds then { t with locked := false } else t
  let tasks3 := tasks2.map fun t =>
    if advanceEligible t then
      (if t.hasNext then { t with nextDisabled := false } else t)
    else t
  { s with tasks := tasks3 }

/-- `initializeGame` (script.js:30-38): restore from storage, then
restore the UI.  When `restoreStateFromLocalStorage` throws, the
exception aborts the handler before `restoreUIState` runs. -/
def initializeGame (markup : List TaskDom) (st : Storage) :
    EngineState × Bool :=
  match restoreStateFromLocalStorage (freshState markup) st with
  | (s, true) => (s, true)
  | (s, false) => (restoreUIState s, false)

/-- The reset button handler (script.js:66-73): remove the three keys,
then `location.reload()`, which re-runs the script on the static markup
against the cleared storage. -/
def resetProgress (markup : List TaskDom) (st : Storage) :
    (EngineState × Bool) × Storage :=
  (initializeGame markup (clearStorage st), clearStorage st)

/-- The clicked quiz container with its `answered` class added
(script.js:117). -/
def submitTask1 (task : TaskDom) (quizIdx : Nat) (quiz : QuizDom) : TaskDom :=
  { task with quizzes := task.quizzes.set quizIdx { quiz with answered := true } }

/-- The engine state right after the score/answered updates of a first
correct answer (script.js:117-128): mark the quiz answered, increment
`score` and `answeredCorrectlyCount`, add the composite key to
`answeredQuizIds`. -/
def submitState1 (s : EngineState) (taskIdx quizIdx : Nat)
    (task : TaskDom) (quiz : QuizDom) : EngineState :=
  { s with
    tasks := s.tasks.set taskIdx (submitTask1 task quizIdx quiz)
    score := jsInc s.score
    answeredCorrectlyCount := s.answeredCorrectlyCount + 1
    answeredQuizIds := s.answeredQuizIds ++ [quizKey task.id quizIdx] }

/-- The task after the completion check passes: the next button, when
present, is enabled (script.js:135-136). -/
def submitTask2 (task1 : TaskDom) : TaskDom :=
  if task1.hasNext then { task1 with nextDisabled := false } else task1

/-- The engine state after the completion check passes
(script.js:134-139): enable the next button and add the *current* task's
id to `unlockedTaskIds`. -/
def submitState2 (s1 : EngineState) (taskIdx : Nat) (task1 : TaskDom) : EngineState :=
  { s1 with
    tasks := s1.tasks.set taskIdx (submitTask2 task1)
    unlockedTaskIds := addToSet s1.unlockedTaskIds task1.id }

/-- `handleOptionClick` (script.js:97-145) for a click on an option of
quiz `quizIdx` of task `taskIdx`; `isCorrect` is
`selectedOption.dataset.correct === 'true'`.  Listeners exist only for
option elements present in the markup, so out-of-range indices (no
listener) leave everything unchanged. -/
def handleOptionClick (s : EngineState) (st : Storage)
    (taskIdx quizIdx : Nat) (isCorrect : Bool) : EngineState × Storage :=
  match s.tasks[taskIdx]? with
  | none => (s, st)
  | some task =>
    match task.quizzes[quizIdx]? with
    | none => (s, st)
    | some quiz =>
      if quizKey task.id quizIdx ∈ s.answeredQuizIds then (s, st)
      else if isCorrect then
        let task1 := submitTask1 task quizIdx quiz
        let s1 := submitState1 s taskIdx quizIdx task quiz
        let st1 := saveStateToLocalStorage s1 st
        if advanceEligible task1 then
          let s2 := submitState2 s1 taskIdx task1
          (s2, saveStateToLocalStorage s2 st1)
        else (s1, st1)
      else (s, st)

/-- `unlockAndActivateTask` applied to the first element with the given
id (`document.getElementById`); `none` when no element has that id. -/
def activateFirst (tid : String) : List TaskDom → Option (List TaskDom)
  | [] => none
  | t :: ts =>
    if t.id = tid then some ({ t with locked := false, active := true } :: ts)
    else (activateFirst tid ts).map (t :: ·)

/-- `handleNextButtonClick` (script.js:151-165): deactivate the clicked
task, compute `` `task${parseInt(id.replace('task','')) + 1}` ``, and if
an element with that id exists unlock and activate it, record it in
`unlockedTaskIds` and save; otherwise show the completion alert.  The
returned `Bool` is `true` when the completion alert was shown. -/
def handleNextButtonClick (s : EngineState) (st : Storage) (taskIdx : Nat) :
    EngineState × Storage × Bool :=
  match s.tasks[taskIdx]? with
  | none => (s, st, false)
  | some task =>
    let tasksA := s.tasks.set taskIdx { task with active := false }
    let nextId := taskIdOfNum (jsInc (parseIntJS (jsReplaceTask task.id)))
    match activateFirst nextId tasksA with
    | some tasksB =>
      let s1 := { s with tasks := tasksB, unlockedTaskIds := addToSet s.unlockedTaskIds nextId }
      (s1, saveStateToLocalStorage s1 st, false)
    | none => ({ s with tasks := tasksA }, st, true)

/-- The loop of `handleTaskHeaderClick`'s unlocked branch
(script.js:84-88): deactivate every other task, toggle the clicked one;
`j` is the index of the first task of the remaining list. -/
def closeOthersAndToggle (idx : Nat) : Nat → List TaskDom → List TaskDom
  | _, [] => []
  | j, t :: ts =>
    (if j = idx then { t with active := !t.active } else { t with active := false })
      :: closeOthersAndToggle idx (j + 1) ts

/-- `handleTaskHeaderClick` (script.js:80-90).  The returned `Bool` is
`true` when the locked warning was shown (no state change). -/
def handleTaskHeaderClick (s : EngineState) (taskIdx : Nat) :
    EngineState × Bool :=
  match s.tasks[taskIdx]? with
  | none => (s, false)
  | some task =>
    if task.locked then (s, true)
    else ({ s with tasks := closeOthersAndToggle taskIdx 0 s.tasks }, false)

/-- A user command within a session: an option click, a next-button
click, or a task-header click. -/
inductive Cmd where
  | submit (taskIdx quizIdx : Nat) (isCorrect : Bool) : Cmd
  | advance (taskIdx : Nat) : Cmd
  | header (taskIdx : Nat) : Cmd

/-- One command dispatched against the engine state and storage. -/
def step (p : EngineState × Storage) : Cmd → EngineState × Storage
  | .submit t q b => handleOptionClick p.1 p.2 t q b
  | .advance t =>
    let r := handleNextButtonClick p.1 p.2 t
    (r.1, r.2.1)
  | .header t => ((handleTaskHeaderClick p.1 t).1, p.2)

/-- A sequence of commands. -/
def run (p : EngineState × Storage) : List Cmd → EngineState × Storage
  | [] => p
  | c :: cs => run (step p c) cs

/-- The score/answered-set coupling the spec asserts:
`score = |answeredQuizIds|` (the list is duplicate-free in every state
the engine builds, so its length is the set's size). -/
def stateInv (s : EngineState) : Prop :=
  s.score = .int (Int.ofNat s.answeredQuizIds.length)

instance (s : EngineState) : Decidable (stateInv s) := by
  unfold stateInv; infer_instance

/-- Checks that the ids of the tasks, in document order, are
`task n, task (n+1), …` (the markup of this page numbers its tasks
`task1, task2, …` contiguously). -/
def canonicalFrom : Nat → List TaskDom → Bool
  | _, [] => true
  | n, t :: ts => t.id = taskIdStr n && canonicalFrom (n + 1) ts

/-- The task ids in document order are `task1, task2, …`. -/
def canonicalTasks (l : List TaskDom) : Bool := canonicalFrom 1 l

/-! ### Decimal digits and `parseInt` round-trip -/

lemma digitChar_isDigit {n : Nat} (h : n < 10) : (digitChar n).isDigit = true := by
  interval_cases n <;> decide

lemma digitVal_digitChar {n : Nat} (h : n < 10) : digitVal (digitChar n) = n := by
  interval_cases n <;> decide

lemma isDigit_ne_space {c : Char} (h : c.isDigit = true) : c ≠ ' ' := by
  intro hc; subst hc; exact absurd h (by decide)

lemma isDigit_ne_minus {c : Char} (h : c.isDigit = true) : c ≠ '-' := by
  intro hc; subst hc; exact absurd h (by decide)

lemma isDigit_ne_plus {c : Char} (h : c.isDigit = true) : c ≠ '+' := by
  intro hc; subst hc; exact absurd h (by decide)

lemma natCharsGo_irrel {f1 f2 n : Nat} (h1 : n < f1) (h2 : n < f2) :
    natCharsGo f1 n = natCharsGo f2 n := by
  induction f1 generalizing f2 n with
  | zero => omega
  | succ f ih =>
    cases f2 with
    | zero => omega
    | succ g =>
      simp only [natCharsGo]
      by_cases hn : n < 10
      · simp [hn]
      · have hdiv : n / 10 < n := Nat.div_lt_self (by omega) (by omega)
        simp only [hn, if_false]
        rw [@ih g (n / 10) (by omega) (by omega)]

lemma natCharsGo_digits {fuel n : Nat} (h : n < fuel) :
    ∀ c ∈ natCharsGo fuel n, c.isDigit = true := by
  induction fuel generalizing n with
  | zero => omega
  | succ f ih =>
    simp only [natCharsGo]
    by_cases hn : n < 10
    · simp only [hn, if_true, List.mem_singleton]
      rintro c rfl; exact digitChar_isDigit hn
    · have hdiv : n / 10 < n := Nat.div_lt_self (by omega) (by omega)
      simp only [hn, if_false, List.mem_append, List.mem_singleton]
      rintro c (hc | rfl)
      · exact ih (by omega) c hc
      · exact digitChar_isDigit (Nat.mod_lt _ (by omega))

lemma natCharsGo_ne_nil {fuel n : Nat} (h : n < fuel) :
    natCharsGo fuel n ≠ [] := by
  cases fuel with
  | zero => omega
  | succ f =>
    simp only [natCharsGo]
    by_cases hn : n < 10
    · simp [hn]
    · simp [hn]

lemma natCharsGo_foldl {fuel n : Nat} (h : n < fuel) (a : Nat) :
    List.foldl (fun a c => a * 10 + digitVal c) a (natCharsGo fuel n)
      = a * 10 ^ (natCharsGo fuel n).length + n := by
  induction fuel generalizing n a with
  | zero => omega
  | succ f ih =>
    simp only [natCharsGo]
    by_cases hn : n < 10
    · simp only [hn, if_true, List.foldl_cons, List.foldl_nil, List.length_singleton,
        pow_one, digitVal_digitChar hn]
    · have hdiv : n / 10 < n := Nat.div_lt_self (by omega) (by omega)
      simp only [hn, if_false, List.foldl_append, List.foldl_cons, List.foldl_nil,
        List.length_append, List.length_singleton]
      rw [ih (by omega)]
      rw [digitVal_digitChar (Nat.mod_lt _ (by omega))]
      have hmod : n / 10 * 10 + n % 10 = n := by omega
      rw [pow_succ]
      calc (a * 10 ^ (natCharsGo f (n / 10)).length + n / 10) * 10 + n % 10
          = a * (10 ^ (natCharsGo f (n / 10)).length * 10) + (n / 10 * 10 + n % 10) := by ring
        _ = a * (10 ^ (natCharsGo f (n / 10)).length * 10) + n := by rw [hmod]

lemma natChars_digits {n : Nat} : ∀ c ∈ natChars n, c.isDigit = true :=
  natCharsGo_digits (Nat.lt_succ_self n)

lemma natChars_ne_nil {n : Nat} : natChars n ≠ [] :=
  natCharsGo_ne_nil (Nat.lt_succ_self n)

lemma digitsVal_natChars {n : Nat} : digitsVal (natChars n) = n := by
  have := natCharsGo_foldl (Nat.lt_succ_self n) 0
  simpa [digitsVal, natChars] using this

lemma parseIntCore_natChars {n : Nat} : parseIntCore (natChars n) = .int n := by
  unfold parseIntCore
  rw [List.takeWhile_eq_self_iff.mpr natChars_digits]
  simp [List.isEmpty_iff, natChars_ne_nil, digitsVal_natChars]

lemma parseIntChars_natChars {n : Nat} : parseIntChars (natChars n) = .int n := by
  obtain ⟨c, cs, hcons⟩ := List.exists_cons_of_ne_nil (natChars_ne_nil (n := n))
  have hc : c.isDigit = true := by
    apply natChars_digits; rw [hcons]; exact List.mem_cons_self c cs
  unfold parseIntChars
  rw [hcons, List.dropWhile_cons]
  have hsp : ¬ (c = ' ') := isDigit_ne_space hc
  simp only [decide_eq_true_eq, hsp, if_false]
  rw [if_neg (isDigit_ne_minus hc), if_neg (isDigit_ne_plus hc), ← hcons,
    parseIntCore_natChars]

lemma parseIntJS_natToStr {n : Nat} : parseIntJS (natToStr n) = .int n :=
  parseIntChars_natChars

lemma jsReplaceTask_taskIdStr {n : Nat} :
    jsReplaceTask (taskIdStr n) = natToStr n := by
  unfold jsReplaceTask taskIdStr natToStr
  simp [List.take, List.drop]

lemma nextId_of_taskIdStr {n : Nat} :
    taskIdOfNum (jsInc (parseIntJS (jsReplaceTask (taskIdStr n)))) = taskIdStr (n + 1) := by
  rw [jsReplaceTask_taskIdStr, parseIntJS_natToStr]
  show taskIdOfNum (.int (Int.ofNat n + 1)) = taskIdStr (n + 1)
  have : (Int.ofNat n + 1) = Int.ofNat (n + 1) := (Int.ofNat_succ n).symm
  rw [this]
  rfl

lemma taskIdStr_inj {n m : Nat} (h : taskIdStr n = taskIdStr m) : n = m := by
  have := congrArg (fun s => parseIntJS (jsReplaceTask s)) h
  simp only [jsReplaceTask_taskIdStr, parseIntJS_natToStr, JSNum.int.injEq] at this
  exact Int.ofNat.inj this

/-! ### Insertion-ordered set operations -/

lemma mem_addToSet {l : List String} {x y : String} :
    y ∈ addToSet l x ↔ y ∈ l ∨ y = x := by
  unfold addToSet
  by_cases h : x ∈ l
  · simp only [h, if_true]
    constructor
    · exact Or.inl
    · rintro (hy | rfl) <;> assumption
  · simp [h, List.mem_append]

lemma mem_addToSet_self {l : List String} {x : String} : x ∈ addToSet l x :=
  mem_addToSet.mpr (Or.inr rfl)

lemma mem_addToSet_of_ne {l : List String} {x y : String} (h : y ≠ x) :
    y ∈ addToSet l x ↔ y ∈ l := by
  rw [mem_addToSet]
  exact or_iff_left h

lemma nodup_addToSet {l : List String} {x : String} (h : l.Nodup) :
    (addToSet l x).Nodup := by
  unfold addToSet
  by_cases hx : x ∈ l
  · simpa [hx]
  · simpa [hx, List.nodup_append] using h

lemma foldl_addToSet_mem {x : String} :
    ∀ (l acc : List String), x ∈ l.foldl addToSet acc ↔ x ∈ acc ∨ x ∈ l := by
  intro l
  induction l with
  | nil => simp
  | cons a as ih =>
    intro acc
    simp only [List.foldl_cons, ih, mem_addToSet, List.mem_cons]
    tauto

lemma mem_dedup {l : List String} {x : String} : x ∈ dedup l ↔ x ∈ l := by
  unfold dedup
  rw [foldl_addToSet_mem]
  simp

lemma foldl_addToSet_nodup :
    ∀ (l acc : List String), acc.Nodup → (l.foldl addToSet acc).Nodup := by
  intro l
  induction l with
  | nil => exact fun acc h => h
  | cons a as ih => exact fun acc h => ih _ (nodup_addToSet h)

lemma dedup_nodup {l : List String} : (dedup l).Nodup :=
  foldl_addToSet_nodup l [] List.nodup_nil

lemma foldl_addToSet_of_disjoint :
    ∀ (l acc : List String), l.Nodup → (∀ x ∈ l, x ∉ acc) →
      l.foldl addToSet acc = acc ++ l := by
  intro l
  induction l with
  | nil => simp
  | cons a as ih =>
    intro acc hnd hdis
    have ha : a ∉ acc := hdis a (List.mem_cons_self a as)
    simp only [List.foldl_cons]
    rw [show addToSet acc a = acc ++ [a] from if_neg ha]
    rw [ih (acc ++ [a]) (List.nodup_cons.mp hnd).2]
    · simp
    · intro x hx
      simp only [List.mem_append, List.mem_singleton]
      rintro (hx' | rfl)
      · exact hdis x (List.mem_cons_of_mem a hx) hx'
      · exact (List.nodup_cons.mp hnd).1 hx

lemma dedup_eq_self {l : List String} (h : l.Nodup) : dedup l = l := by
  unfold dedup
  rw [foldl_addToSet_of_disjoint l [] h (by simp)]
  simp

/-! ### Canonical task ids and `getElementById` -/

lemma canonicalFrom_id {l : List TaskDom} :
    ∀ {k i : Nat} {t : TaskDom}, canonicalFrom k l = true → l[i]? = some t →
      t.id = taskIdStr (k + i) := by
  induction l with
  | nil => intro k i t _ h; simp at h
  | cons a as ih =>
    intro k i t hc hg
    simp only [canonicalFrom, Bool.and_eq_true, decide_eq_true_eq] at hc
    cases i with
    | zero =>
      simp only [List.getElem?_cons_zero, Option.some.injEq] at hg
      subst hg; simpa using hc.1
    | succ j =>
      simp only [List.getElem?_cons_succ] at hg
      have := ih hc.2 hg
      rw [this]; congr 1; omega

lemma canonicalTasks_id {l : List TaskDom} {i : Nat} {t : TaskDom}
    (hc : canonicalTasks l = true) (hg : l[i]? = some t) :
    t.id = taskIdStr (i + 1) := by
  have := canonicalFrom_id hc hg
  simpa [Nat.add_comm] using this

lemma activateFirst_eq_none {tid : String} :
    ∀ {l : List TaskDom}, (∀ t ∈ l, t.id ≠ tid) → activateFirst tid l = none := by
  intro l
  induction l with
  | nil => intro _; rfl
  | cons a as ih =>
    intro h
    unfold activateFirst
    rw [if_neg (h a (List.mem_cons_self a as))]
    rw [ih fun t ht => h t (List.mem_cons_of_mem a ht)]
    rfl

lemma activateFirst_isSome {tid : String} :
    ∀ {l : List TaskDom}, (∃ t ∈ l, t.id = tid) →
      ∃ l', activateFirst tid l = some l' := by
  intro l
  induction l with
  | nil => rintro ⟨t, ht, _⟩; simp at ht
  | cons a as ih =>
    rintro ⟨t, ht, hid⟩
    unfold activateFirst
    by_cases ha : a.id = tid
    · exact ⟨_, by rw [if_pos ha]⟩
    · rcases List.mem_cons.mp ht with rfl | ht'
      · exact absurd hid ha
      · obtain ⟨l', hl'⟩ := ih ⟨t, ht', hid⟩
        exact ⟨a :: l', by rw [if_neg ha, hl']; rfl⟩

/-! ### Command characterizations -/

lemma handleOptionClick_of_mem {s : EngineState} {st : Storage} {i q : Nat}
    {b : Bool} {task : TaskDom} {quiz : QuizDom}
    (ht : s.tasks[i]? = some task) (hq : task.quizzes[q]? = some quiz)
    (hmem : quizKey task.id q ∈ s.answeredQuizIds) :
    handleOptionClick s st i q b = (s, st) := by
  simp [handleOptionClick, ht, hq, hmem]

lemma handleOptionClick_spec (s : EngineState) (st : Storage) (i q : Nat) (b : Bool) :
    handleOptionClick s st i q b = (s, st)
  ∨ ∃ task quiz, s.tasks[i]? = some task ∧ task.quizzes[q]? = some quiz
      ∧ quizKey task.id q ∉ s.answeredQuizIds ∧ b = true
      ∧ ((advanceEligible (submitTask1 task q quiz) = false
           ∧ handleOptionClick s st i q b
               = (submitState1 s i q task quiz,
                  saveStateToLocalStorage (submitState1 s i q task quiz) st))
        ∨ (advanceEligible (submitTask1 task q quiz) = true
           ∧ handleOptionClick s st i q b
               = (submitState2 (submitState1 s i q task quiz) i (submitTask1 task q quiz),
                  saveStateToLocalStorage
                    (submitState2 (submitState1 s i q task quiz) i (submitTask1 task q quiz))
                    (saveStateToLocalStorage (submitState1 s i q task quiz) st)))) := by
  cases ht : s.tasks[i]? with
  | none => left; simp [handleOptionClick, ht]
  | some task =>
    cases hq : task.quizzes[q]? with
    | none => left; simp [handleOptionClick, ht, hq]
    | some quiz =>
      by_cases hmem : quizKey task.id q ∈ s.answeredQuizIds
      · left; exact handleOptionClick_of_mem ht hq hmem
      · cases b with
        | false => left; simp [handleOptionClick, ht, hq, hmem]
        | true =>
          right
          refine ⟨task, quiz, rfl, hq, hmem, rfl, ?_⟩
          by_cases helig : advanceEligible (submitTask1 task q quiz) = true
          · exact Or.inr ⟨helig, by simp [handleOptionClick, ht, hq, hmem, helig]⟩
          · refine Or.inl ⟨by simpa using helig, ?_⟩
            simp [handleOptionClick, ht, hq, hmem, helig]

lemma submitState1_tasks {s : EngineState} {i q : Nat} {task : TaskDom}
    {quiz : QuizDom} (hlen : i < s.tasks.length) :
    (submitState1 s i q task quiz).tasks[i]? = some (submitTask1 task q quiz) :=
  List.getElem?_set_eq_of_lt _ hlen

lemma submitState2_tasks {s1 : EngineState} {i : Nat} {task1 : TaskDom}
    (hlen : i < s1.tasks.length) :
    (submitState2 s1 i task1).tasks[i]? = some (submitTask2 task1) :=
  List.getElem?_set_eq_of_lt _ hlen

lemma submitTask1_id {task : TaskDom} {q : Nat} {quiz : QuizDom} :
    (submitTask1 task q quiz).id = task.id := rfl

lemma submitTask2_id {task1 : TaskDom} : (submitTask2 task1).id = task1.id := by
  unfold submitTask2
  by_cases h : task1.hasNext <;> simp [h]

lemma submitTask2_quizzes {task1 : TaskDom} :
    (submitTask2 task1).quizzes = task1.quizzes := by
  unfold submitTask2
  by_cases h : task1.hasNext <;> simp [h]

lemma handleNextButtonClick_frame (s : EngineState) (st : Storage) (i : Nat) :
    (handleNextButtonClick s st i).1.score = s.score
  ∧ (handleNextButtonClick s st i).1.answeredQuizIds = s.answeredQuizIds
  ∧ (handleNextButtonClick s st i).1.answeredCorrectlyCount = s.answeredCorrectlyCount := by
  cases ht : s.tasks[i]? with
  | none => simp [handleNextButtonClick, ht]
  | some task =>
    simp only [handleNextButtonClick, ht]
    cases activateFirst
        (taskIdOfNum (jsInc (parseIntJS (jsReplaceTask task.id))))
        (s.tasks.set i { task with active := false }) with
    | none => exact ⟨rfl, rfl, rfl⟩
    | some tasksB => exact ⟨rfl, rfl, rfl⟩

lemma handleTaskHeaderClick_frame (s : EngineState) (i : Nat) :
    (handleTaskHeaderClick s i).1.score = s.score
  ∧ (handleTaskHeaderClick s i).1.answeredQuizIds = s.answeredQuizIds
  ∧ (handleTaskHeaderClick s i).1.unlockedTaskIds = s.unlockedTaskIds := by
  cases ht : s.tasks[i]? with
  | none => simp [handleTaskHeaderClick, ht]
  | some task =>
    simp only [handleTaskHeaderClick, ht]
    by_cases hl : task.locked
    · simp [hl]
    · simp [hl]

/-! ### Score order -/

lemma jsLe_refl (x : JSNum) : jsLe x x := by
  cases x <;> simp [jsLe]

lemma jsLe_inc (x : JSNum) : jsLe x (jsInc x) := by
  cases x <;> simp [jsLe, jsInc]

lemma jsLe_trans {x y z : JSNum} (h1 : jsLe x y) (h2 : jsLe y z) : jsLe x z := by
  cases x <;> cases y <;> cases z <;> simp_all [jsLe]
  omega

lemma step_score (p : EngineState × Storage) (c : Cmd) :
    (step p c).1.score = p.1.score ∨ (step p c).1.score = jsInc p.1.score := by
  cases c with
  | submit t q b =>
    rcases handleOptionClick_spec p.1 p.2 t q b with h | ⟨_, _, _, _, _, _, hcase⟩
    · left; simp [step, h]
    · rcases hcase with ⟨_, hres⟩ | ⟨_, hres⟩ <;>
        (right; simp [step, hres, submitState2, submitState1])
  | advance t => left; exact (handleNextButtonClick_frame p.1 p.2 t).1
  | header t => left; exact (handleTaskHeaderClick_frame p.1 t).1

lemma handleOptionClick_correct_new {s : EngineState} {st : Storage} {i q : Nat}
    {task : TaskDom} {quiz : QuizDom}
    (ht : s.tasks[i]? = some task) (hq : task.quizzes[q]? = some quiz)
    (hnew : quizKey task.id q ∉ s.answeredQuizIds) :
    (advanceEligible (submitTask1 task q quiz) = false
      ∧ handleOptionClick s st i q true
          = (submitState1 s i q task quiz,
             saveStateToLocalStorage (submitState1 s i q task quiz) st))
  ∨ (advanceEligible (submitTask1 task q quiz) = true
      ∧ handleOptionClick s st i q true
          = (submitState2 (submitState1 s i q task quiz) i (submitTask1 task q quiz),
             saveStateToLocalStorage
               (submitState2 (submitState1 s i q task quiz) i (submitTask1 task q quiz))
               (saveStateToLocalStorage (submitState1 s i q task quiz) st))) := by
  by_cases helig : advanceEligible (submitTask1 task q quiz) = true
  · exact Or.inr ⟨helig, by simp [handleOptionClick, ht, hq, hnew, helig]⟩
  · refine Or.inl ⟨by simpa using helig, ?_⟩
    simp [handleOptionClick, ht, hq, hnew, helig]

/-! ### Persistence round trip -/

lemma parseScoreSlot_save (x : JSNum) :
    parseScoreSlot (some (numStrOfScore x)) = x := by
  cases x <;> rfl

lemma restore_save (sF s : EngineState) (st : Storage) :
    restoreStateFromLocalStorage sF (saveStateToLocalStorage s st)
      = ({ sF with
            score := s.score
            answeredQuizIds := dedup s.answeredQuizIds
            answeredCorrectlyCount := (dedup s.answeredQuizIds).length
            unlockedTaskIds := dedup s.unlockedTaskIds }, false) := by
  simp [restoreStateFromLocalStorage, saveStateToLocalStorage,
    parseScoreSlot_save, jsonSlotList]

lemma restore_none_slots (s : EngineState) (n : Nat) :
    restoreStateFromLocalStorage s
        { scoreSlot := none, answeredSlot := none, unlockedSlot := none, setItemCount := n }
      = ({ s with
            score := .int 0
            answeredQuizIds := []
            answeredCorrectlyCount := 0
            unlockedTaskIds := [] }, false) := by
  simp [restoreStateFromLocalStorage, parseScoreSlot, jsonSlotList]

lemma restoreUIState_score (s : EngineState) :
    (restoreUIState s).score = s.score := rfl

lemma restoreUIState_answered (s : EngineState) :
    (restoreUIState s).answeredQuizIds = s.answeredQuizIds := rfl

lemma restoreUIState_unlocked (s : EngineState) :
    (restoreUIState s).unlockedTaskIds = s.unlockedTaskIds := rfl

/-! ### Concrete page data used in the closing theorems: the two-task
markup of the concrete scenarios (task1 with two quizzes, task2 with
one, only task1 initially open), an initially empty storage, and some
stored contents. -/

def demoTask1 : TaskDom :=
  { id := taskIdStr 1
    questionsTotal := some (.num 2)
    locked := false
    active := true
    hasNext := true
    nextDisabled := true
    quizzes := [{ answered := false }, { answered := false }] }

def demoTask2 : TaskDom :=
  { id := taskIdStr 2
    questionsTotal := some (.num 1)
    locked := true
    active := false
    hasNext := false
    nextDisabled := true
    quizzes := [{ answered := false }] }

def demoMarkup : List TaskDom := [demoTask1, demoTask2]

def stEmpty : Storage :=
  { scoreSlot := none, answeredSlot := none, unlockedSlot := none, setItemCount := 0 }

/-- Storage whose score slot and answered slot disagree: a legal score
string `5` alongside an absent answered slot. -/
def stDesync : Storage :=
  { scoreSlot := some (.num 5), answeredSlot := none, unlockedSlot := none, setItemCount := 0 }

/-- Storage with a corrupt answered slot next to a perfectly loadable
unlocked slot. -/
def stCorrupt : Storage :=
  { scoreSlot := some (.num 2)
    answeredSlot := some .bad
    unlockedSlot := some (.ok [taskIdStr 1, taskIdStr 2])
    setItemCount := 0 }

/-- Storage holding a mid-session snapshot (used to reset from). -/
def stSnapshot : Storage :=
  { scoreSlot := some (.num 3)
    answeredSlot := some (.ok [quizKey (taskIdStr 1) 0])
    unlockedSlot := some (.ok [taskIdStr 1])
    setItemCount := 6 }

/-- A task whose `data-questions-total` attribute is absent. -/
def noTotalTask : TaskDom :=
  { id := taskIdStr 1
    questionsTotal := none
    locked := false
    active := true
    hasNext := true
    nextDisabled := true
    quizzes := [{ answered := false }] }

lemma jsGe_nan (x : JSNum) : jsGe x .nan = false := by
  cases x <;> rfl

/-! ### Invariant and monotonicity machinery -/

lemma stateInv_submitState1 {s : EngineState} {i q : Nat} {task : TaskDom}
    {quiz : QuizDom} (h : stateInv s) :
    stateInv (submitState1 s i q task quiz) := by
  unfold stateInv at h ⊢
  show jsInc s.score = JSNum.int (Int.ofNat (s.answeredQuizIds ++ [quizKey task.id q]).length)
  rw [h]
  simp [jsInc, List.length_append, Int.ofNat_succ]

lemma stateInv_submitState2 {s1 : EngineState} {i : Nat} {task1 : TaskDom}
    (h : stateInv s1) : stateInv (submitState2 s1 i task1) := h

lemma step_inv (p : EngineState × Storage) (c : Cmd) (h : stateInv p.1) :
    stateInv (step p c).1 := by
  cases c with
  | submit t q b =>
    rcases handleOptionClick_spec p.1 p.2 t q b with hres | ⟨task, quiz, _, _, _, _, hbr⟩
    · simpa [step, hres] using h
    · rcases hbr with ⟨_, hres⟩ | ⟨_, hres⟩
      · simpa [step, hres] using stateInv_submitState1 h
      · simpa [step, hres] using stateInv_submitState2 (stateInv_submitState1 h)
  | advance t =>
    have hf := handleNextButtonClick_frame p.1 p.2 t
    unfold stateInv at h ⊢
    show (handleNextButtonClick p.1 p.2 t).1.score
      = JSNum.int (Int.ofNat (handleNextButtonClick p.1 p.2 t).1.answeredQuizIds.length)
    rw [hf.1, hf.2.1, h]
  | header t =>
    have hf := handleTaskHeaderClick_frame p.1 t
    unfold stateInv at h ⊢
    show (handleTaskHeaderClick p.1 t).1.score
      = JSNum.int (Int.ofNat (handleTaskHeaderClick p.1 t).1.answeredQuizIds.length)
    rw [hf.1, hf.2.1, h]

lemma run_score_mono : ∀ (cmds : List Cmd) (p : EngineState × Storage),
    jsLe p.1.score (run p cmds).1.score := by
  intro cmds
  induction cmds with
  | nil => intro p; exact jsLe_refl _
  | cons c cs ih =>
    intro p
    have h1 : jsLe p.1.score (step p c).1.score := by
      rcases step_score p c with h | h
      · rw [h]; exact jsLe_refl _
      · rw [h]; exact jsLe_inc _
    exact jsLe_trans h1 (ih (step p c))

/-! ### Claims -/

/-- C1 (counterexample): "for every reachable state — including states
rehydrated from the persistence slots at initialization — the stored
score equals the cardinality of answeredQuizIds" is false: rehydrating
from a storage whose score slot holds the legal decimal string `5` while
the answered slot is absent yields `score = 5` with an empty answered
set. -/
theorem score_desync_after_load :
    ¬ stateInv (initializeGame demoMarkup stDesync).1 := by decide

/-- C1 (amended): the `score = |answeredQuizIds|` coupling holds in the
fresh state, is preserved by every command, and survives a save-then-load
round trip of a consistent state with a duplicate-free answered set; it
is not guaranteed for arbitrary slot contents because the score slot is
restored independently of the answered slot.  Moreover over any command
sequence within a session the score never decreases. -/
theorem score_matches_answered_and_monotone :
    (∀ p c, stateInv p.1 → stateInv (step p c).1)
  ∧ (∀ markup, stateInv (freshState markup))
  ∧ (∀ s st markup, stateInv s → s.answeredQuizIds.Nodup →
      stateInv (initializeGame markup (saveStateToLocalStorage s st)).1)
  ∧ (∀ p cmds, jsLe p.1.score (run p cmds).1.score) := by
  refine ⟨step_inv, fun markup => rfl, ?_, fun p cmds => run_score_mono cmds p⟩
  intro s st markup hinv hnd
  have hres := restore_save (freshState markup) s st
  simp only [initializeGame, hres]
  unfold stateInv
  show s.score = JSNum.int (Int.ofNat (dedup s.answeredQuizIds).length)
  rw [dedup_eq_self hnd]
  exact hinv

/-- C1 (witness): the invariant-preservation part applied to a concrete
correct submission on the fresh demo state. -/
theorem score_matches_answered_witness :
    stateInv (step (freshState demoMarkup, stEmpty) (Cmd.submit 0 0 true)).1 :=
  score_matches_answered_and_monotone.1 (freshState demoMarkup, stEmpty)
    (Cmd.submit 0 0 true) (by decide)

/-- C2 (counterexample): task1 of the demo markup is not advance-eligible
(no quiz answered), yet `handleNextButtonClick` on it is not rejected: it
adds task2 to `unlockedTaskIds` and performs a persistence write — the
handler never re-checks eligibility. -/
theorem advance_without_eligibility_cex :
    advanceEligible demoTask1 = false
  ∧ (handleNextButtonClick (freshState demoMarkup) stEmpty 0).1.unlockedTaskIds
      = [taskIdStr 2]
  ∧ (handleNextButtonClick (freshState demoMarkup) stEmpty 0).2.1.setItemCount = 3 := by
  decide

/-- C2 (amended): `handleNextButtonClick` performs no eligibility
re-check: on a page with canonical ids `task1 … taskK`, invoking it on
task `i+1` when a task exists at position `i+2` unconditionally adds
`task(i+2)` to `unlockedTaskIds`, whatever the answered state; score and
the answered set are untouched.  Sequential unlock relies solely on the
UI keeping the button disabled. -/
theorem advance_ignores_eligibility (s : EngineState) (st : Storage) (i : Nat)
    (hc : canonicalTasks s.tasks = true) (hi : i + 1 < s.tasks.length) :
    taskIdStr (i + 2) ∈ (handleNextButtonClick s st i).1.unlockedTaskIds
  ∧ (handleNextButtonClick s st i).1.score = s.score
  ∧ (handleNextButtonClick s st i).1.answeredQuizIds = s.answeredQuizIds := by
  have hilen : i < s.tasks.length := by omega
  obtain ⟨task, ht⟩ : ∃ t, s.tasks[i]? = some t :=
    ⟨_, List.getElem?_eq_getElem hilen⟩
  have hid : task.id = taskIdStr (i + 1) := canonicalTasks_id hc ht
  have hnid : taskIdOfNum (jsInc (parseIntJS (jsReplaceTask task.id)))
      = taskIdStr (i + 2) := by
    rw [hid]; exact nextId_of_taskIdStr
  obtain ⟨t2, ht2⟩ : ∃ t, (s.tasks.set i { task with active := false })[i + 1]? = some t := by
    rw [List.getElem?_set_ne (by omega)]
    exact ⟨_, List.getElem?_eq_getElem hi⟩
  have ht2' : s.tasks[i + 1]? = some t2 := by
    rw [← List.getElem?_set_ne (show i ≠ i + 1 by omega)
      (a := { task with active := false })]
    exact ht2
  have ht2id : t2.id = taskIdStr (i + 2) := canonicalTasks_id hc ht2'
  obtain ⟨tasksB, hact⟩ :=
    activateFirst_isSome
      ⟨t2, List.mem_iff_getElem?.mpr ⟨i + 1, ht2⟩, by rw [ht2id, ← hnid]⟩
  have hres : handleNextButtonClick s st i
      = ({ s with
            tasks := tasksB
            unlockedTaskIds := addToSet s.unlockedTaskIds
              (taskIdOfNum (jsInc (parseIntJS (jsReplaceTask task.id)))) },
         saveStateToLocalStorage
           { s with
              tasks := tasksB
              unlockedTaskIds := addToSet s.unlockedTaskIds
                (taskIdOfNum (jsInc (parseIntJS (jsReplaceTask task.id)))) } st,
         false) := by
    simp [handleNextButtonClick, ht, hact]
  rw [hres]
  refine ⟨?_, rfl, rfl⟩
  show taskIdStr (i + 2)
    ∈ addToSet s.unlockedTaskIds (taskIdOfNum (jsInc (parseIntJS (jsReplaceTask task.id))))
  rw [hnid]
  exact mem_addToSet_self

/-- C2 (witness): the amended advance behaviour on the fresh demo
state. -/
theorem advance_ignores_eligibility_witness :
    taskIdStr 2 ∈ (handleNextButtonClick (freshState demoMarkup) stEmpty 0).1.unlockedTaskIds
  ∧ (handleNextButtonClick (freshState demoMarkup) stEmpty 0).1.score
      = (freshState demoMarkup).score
  ∧ (handleNextButtonClick (freshState demoMarkup) stEmpty 0).1.answeredQuizIds
      = (freshState demoMarkup).answeredQuizIds :=
  advance_ignores_eligibility (freshState demoMarkup) stEmpty 0 (by decide) (by decide)

/-- C3: an option click on a quiz whose composite id is already in
`answeredQuizIds` is a no-op on the state and the storage; and after a
first correct submission, any second submission of the same item is a
no-op, so the two submissions together raise the score by exactly one. -/
theorem submitAnswer_idempotent (s : EngineState) (st : Storage) (i q : Nat)
    (task : TaskDom) (quiz : QuizDom)
    (ht : s.tasks[i]? = some task) (hq : task.quizzes[q]? = some quiz) :
    (∀ b, quizKey task.id q ∈ s.answeredQuizIds → handleOptionClick s st i q b = (s, st))
  ∧ (quizKey task.id q ∉ s.answeredQuizIds →
      ∀ b, handleOptionClick (handleOptionClick s st i q true).1
             (handleOptionClick s st i q true).2 i q b
           = handleOptionClick s st i q true
        ∧ (handleOptionClick s st i q true).1.score = jsInc s.score) := by
  constructor
  · intro b hmem
    exact handleOptionClick_of_mem ht hq hmem
  · intro hnew b
    have hlen : i < s.tasks.length := (List.getElem?_eq_some.mp ht).1
    have hqlen : q < task.quizzes.length := (List.getElem?_eq_some.mp hq).1
    rcases handleOptionClick_correct_new ht hq hnew with ⟨_, hres⟩ | ⟨_, hres⟩
    · refine ⟨?_, by rw [hres]; rfl⟩
      rw [hres]
      have h2 : (submitTask1 task q quiz).quizzes[q]? = some { quiz with answered := true } :=
        List.getElem?_set_eq_of_lt _ hqlen
      have h3 : quizKey (submitTask1 task q quiz).id q
          ∈ (submitState1 s i q task quiz).answeredQuizIds := by
        rw [submitTask1_id]
        show quizKey task.id q ∈ s.answeredQuizIds ++ [quizKey task.id q]
        simp
      exact handleOptionClick_of_mem (submitState1_tasks hlen) h2 h3
    · refine ⟨?_, by rw [hres]; rfl⟩
      rw [hres]
      have h1 : (submitState2 (submitState1 s i q task quiz) i
            (submitTask1 task q quiz)).tasks[i]?
          = some (submitTask2 (submitTask1 task q quiz)) :=
        submitState2_tasks (by simpa [submitState1] using hlen)
      have h2 : (submitTask2 (submitTask1 task q quiz)).quizzes[q]?
          = some { quiz with answered := true } := by
        rw [submitTask2_quizzes]
        exact List.getElem?_set_eq_of_lt _ hqlen
      have h3 : quizKey (submitTask2 (submitTask1 task q quiz)).id q
          ∈ (submitState2 (submitState1 s i q task quiz) i
              (submitTask1 task q quiz)).answeredQuizIds := by
        rw [submitTask2_id, submitTask1_id]
        show quizKey task.id q ∈ s.answeredQuizIds ++ [quizKey task.id q]
        simp
      exact handleOptionClick_of_mem h1 h2 h3

/-- C3 (witness): idempotence on the first quiz of the demo markup. -/
theorem submitAnswer_idempotent_witness :
    handleOptionClick (handleOptionClick (freshState demoMarkup) stEmpty 0 0 true).1
        (handleOptionClick (freshState demoMarkup) stEmpty 0 0 true).2 0 0 true
      = handleOptionClick (freshState demoMarkup) stEmpty 0 0 true
  ∧ (handleOptionClick (freshState demoMarkup) stEmpty 0 0 true).1.score
      = jsInc (freshState demoMarkup).score :=
  (submitAnswer_idempotent (freshState demoMarkup) stEmpty 0 0 demoTask1
      { answered := false } (by decide) (by decide)).2 (by decide) true

/-- C4 (counterexample): at a fresh initialization (all slots absent),
`unlockedTaskIds` does not contain task1 — nothing force-adds it. -/
theorem task1_not_in_unlocked_initially :
    taskIdStr 1 ∉ (initializeGame demoMarkup stEmpty).1.unlockedTaskIds := by decide

/-- C4 (amended): when the unlocked-tasks slot is absent at load the
engine defaults `unlockedTaskIds` to the empty set and does not
force-add task1 (task1 only appears unlocked because the static markup
lacks the `locked` class); in particular a fresh initialization produces
an empty `unlockedTaskIds`. -/
theorem unlocked_defaults_to_empty :
    (∀ s st, st.unlockedSlot = none → st.answeredSlot ≠ some .bad →
      (restoreStateFromLocalStorage s st).1.unlockedTaskIds = [])
  ∧ (∀ markup n,
      (initializeGame markup
        { scoreSlot := none
          answeredSlot := none
          unlockedSlot := none
          setItemCount := n }).1.unlockedTaskIds = []) := by
  constructor
  · intro s st hu ha
    simp [restoreStateFromLocalStorage, hu, ha, jsonSlotList]
  · intro markup n
    simp only [initializeGame, restore_none_slots]
    rfl

/-- C4 (witness): the empty default on the empty demo storage. -/
theorem unlocked_defaults_to_empty_witness :
    (restoreStateFromLocalStorage (freshState demoMarkup) stEmpty).1.unlockedTaskIds = [] :=
  unlocked_defaults_to_empty.1 (freshState demoMarkup) stEmpty rfl (by decide)

/-- C5 (counterexample): with a corrupt answered slot, the perfectly
loadable unlocked slot is *not* loaded: `JSON.parse` throws, the load
aborts, and `unlockedTaskIds` stays empty instead of receiving the
stored list — one slot's parse failure does prevent another slot from
loading. -/
theorem corrupt_slot_not_isolated_cex :
    (restoreStateFromLocalStorage (freshState demoMarkup) stCorrupt).1.unlockedTaskIds = []
  ∧ (restoreStateFromLocalStorage (freshState demoMarkup) stCorrupt).2 = true
  ∧ stCorrupt.unlockedSlot = some (.ok [taskIdStr 1, taskIdStr 2])
  ∧ ([] : List String) ≠ [taskIdStr 1, taskIdStr 2] := by decide

/-- C5 (amended): absent slots do fall back to their defaults in one
pass; but a present-and-unparsable slot is not recovered: a corrupt
score slot loads as `NaN` (not `0`), and a corrupt answered slot throws,
so the function returns right after the score assignment and the
unlocked slot is never loaded. -/
theorem load_slot_fallbacks :
    (∀ s n, restoreStateFromLocalStorage s
        { scoreSlot := none
          answeredSlot := none
          unlockedSlot := none
          setItemCount := n }
      = ({ s with
            score := .int 0
            answeredQuizIds := []
            answeredCorrectlyCount := 0
            unlockedTaskIds := [] }, false))
  ∧ (∀ s st, st.scoreSlot = some .nanStr →
      (restoreStateFromLocalStorage s st).1.score = .nan)
  ∧ (∀ s st, st.answeredSlot = some .bad →
      restoreStateFromLocalStorage s st
        = ({ s with score := parseScoreSlot st.scoreSlot }, true)) := by
  refine ⟨restore_none_slots, ?_, ?_⟩
  · intro s st hsc
    unfold restoreStateFromLocalStorage
    rw [hsc]
    by_cases ha : st.answeredSlot = some .bad
    · simp [ha, parseScoreSlot]
    · by_cases hu : st.unlockedSlot = some .bad <;> simp [ha, hu, parseScoreSlot]
  · intro s st ha
    simp [restoreStateFromLocalStorage, ha]

/-- C5 (witness): the abort behaviour on the corrupt demo storage. -/
theorem load_slot_fallbacks_witness :
    restoreStateFromLocalStorage (freshState demoMarkup) stCorrupt
      = ({ freshState demoMarkup with score := parseScoreSlot stCorrupt.scoreSlot }, true) :=
  load_slot_fallbacks.2.2 (freshState demoMarkup) stCorrupt rfl

/-- C6: saving any engine state and then constructing a fresh engine
that loads from the same storage yields the same score, the same
answered set, and the same unlocked set (set membership; the restored
lists are the first-occurrence deduplications of the saved ones), and
the load cannot throw. -/
theorem reload_fidelity (s : EngineState) (st : Storage) (markup : List TaskDom) :
    (initializeGame markup (saveStateToLocalStorage s st)).2 = false
  ∧ (initializeGame markup (saveStateToLocalStorage s st)).1.score = s.score
  ∧ (∀ x, x ∈ (initializeGame markup (saveStateToLocalStorage s st)).1.answeredQuizIds
        ↔ x ∈ s.answeredQuizIds)
  ∧ (∀ x, x ∈ (initializeGame markup (saveStateToLocalStorage s st)).1.unlockedTaskIds
        ↔ x ∈ s.unlockedTaskIds) := by
  have hres := restore_save (freshState markup) s st
  unfold initializeGame
  rw [hres]
  exact ⟨rfl, rfl, fun x => mem_dedup, fun x => mem_dedup⟩

/-- C7 (counterexample): after a reset from a mid-session snapshot,
`unlockedTaskIds` is empty — task1 is not a member, so the set is not
`{task1}` as the claim asserts. -/
theorem reset_does_not_unlock_task1 :
    taskIdStr 1 ∉ (resetProgress demoMarkup stSnapshot).1.1.unlockedTaskIds := by decide

/-- C7 (amended): reset from any state and storage is unconditional
(the reload never throws) and yields score 0, an empty answered set and
all three slots cleared — but `unlockedTaskIds` is empty, not `{task1}`:
nothing force-adds task1. -/
theorem reset_clears_everything (markup : List TaskDom) (st : Storage) :
    (resetProgress markup st).1.1.score = .int 0
  ∧ (resetProgress markup st).1.1.answeredQuizIds = []
  ∧ (resetProgress markup st).1.1.unlockedTaskIds = []
  ∧ (resetProgress markup st).1.2 = false
  ∧ (resetProgress markup st).2.scoreSlot = none
  ∧ (resetProgress markup st).2.answeredSlot = none
  ∧ (resetProgress markup st).2.unlockedSlot = none := by
  exact ⟨rfl, rfl, rfl, rfl, rfl, rfl, rfl⟩

/-- C8: a correct submission never adds any *other* task's id to
`unlockedTaskIds` — in particular never the next task's; the only id the
completion branch can add is the submitted task's own id, so membership
of every other id is unchanged. -/
theorem submit_does_not_unlock_others (s : EngineState) (st : Storage)
    (i q : Nat) (b : Bool) (task : TaskDom) (ht : s.tasks[i]? = some task)
    (tid : String) (hne : tid ≠ task.id) :
    (tid ∈ (handleOptionClick s st i q b).1.unlockedTaskIds
      ↔ tid ∈ s.unlockedTaskIds) := by
  rcases handleOptionClick_spec s st i q b with hres | ⟨task', quiz, hts, _, _, _, hbr⟩
  · rw [hres]
  · have htask : task' = task := by
      rw [ht] at hts
      exact (Option.some.inj hts).symm
    subst htask
    rcases hbr with ⟨_, hres⟩ | ⟨_, hres⟩
    · rw [hres]
      exact Iff.rfl
    · rw [hres]
      show tid ∈ addToSet s.unlockedTaskIds (submitTask1 task' q quiz).id
        ↔ tid ∈ s.unlockedTaskIds
      rw [submitTask1_id]
      exact mem_addToSet_of_ne hne

/-- C8 (witness): answering task1's first quiz never makes task2's id
appear in `unlockedTaskIds`. -/
theorem submit_does_not_unlock_others_witness :
    (taskIdStr 2 ∈ (handleOptionClick (freshState demoMarkup) stEmpty 0 0 true).1.unlockedTaskIds
      ↔ taskIdStr 2 ∈ (freshState demoMarkup).unlockedTaskIds) :=
  submit_does_not_unlock_others (freshState demoMarkup) stEmpty 0 0 true demoTask1
    (by decide) (taskIdStr 2) (by decide)

/-- C9 (counterexample): a task with no `data-questions-total` attribute
is treated as `NaN`, not `0`, and with zero answered quizzes the
completion test is false — the task is not immediately advance-eligible,
contradicting the claim. -/
theorem malformed_total_cex :
    parseDataset noTotalTask.questionsTotal = .nan
  ∧ parseDataset noTotalTask.questionsTotal ≠ .int 0
  ∧ advanceEligible noTotalTask = false := by decide

/-- C9 (amended): a task whose `data-questions-total` is absent or
non-numeric has `totalInTask = NaN`; since no count compares `>= NaN`,
the task is *never* advance-eligible, and a submission on it never
changes `unlockedTaskIds`. -/
theorem malformed_total_never_eligible (t : TaskDom)
    (h : parseDataset t.questionsTotal = .nan) :
    advanceEligible t = false
  ∧ (∀ s st i q b, s.tasks[i]? = some t →
      (handleOptionClick s st i q b).1.unlockedTaskIds = s.unlockedTaskIds) := by
  have helig : ∀ t' : TaskDom, t'.questionsTotal = t.questionsTotal →
      advanceEligible t' = false := by
    intro t' ht'
    unfold advanceEligible
    rw [ht', h, jsGe_nan]
  constructor
  · exact helig t rfl
  · intro s st i q b ht
    rcases handleOptionClick_spec s st i q b with hres | ⟨task', quiz, hts, _, _, _, hbr⟩
    · rw [hres]
    · have htask : task' = t := by
        rw [ht] at hts
        exact (Option.some.inj hts).symm
      subst htask
      rcases hbr with ⟨_, hres⟩ | ⟨helig2, _⟩
      · rw [hres]
        rfl
      · rw [helig (submitTask1 task' q quiz) rfl] at helig2
        exact absurd helig2 (by simp)

/-- C9 (witness): the amended behaviour on a one-task page whose task
has no `data-questions-total`. -/
theorem malformed_total_witness :
    advanceEligible noTotalTask = false
  ∧ (handleOptionClick (freshState [noTotalTask]) stEmpty 0 0 true).1.unlockedTaskIds
      = (freshState [noTotalTask]).unlockedTaskIds :=
  ⟨(malformed_total_never_eligible noTotalTask (by decide)).1,
   (malformed_total_never_eligible noTotalTask (by decide)).2
     (freshState [noTotalTask]) stEmpty 0 0 true (by decide)⟩

/-- C10: advancing from the last task (canonical ids, no task at the
next position): the storage is untouched (no `setItem` call), score,
answered set and unlocked set are unchanged, the only state effect is
removing the `active` class of the clicked task, and the completion
alert is signalled. -/
theorem advance_on_last_task (s : EngineState) (st : Storage) (i : Nat)
    (task : TaskDom) (hc : canonicalTasks s.tasks = true)
    (ht : s.tasks[i]? = some task) (hlast : i + 1 = s.tasks.length) :
    handleNextButtonClick s st i
      = ({ s with tasks := s.tasks.set i { task with active := false } }, st, true) := by
  have hid : task.id = taskIdStr (i + 1) := canonicalTasks_id hc ht
  have hnone : activateFirst (taskIdOfNum (jsInc (parseIntJS (jsReplaceTask task.id))))
      (s.tasks.set i { task with active := false }) = none := by
    have hnid : taskIdOfNum (jsInc (parseIntJS (jsReplaceTask task.id)))
        = taskIdStr (i + 2) := by
      rw [hid]; exact nextId_of_taskIdStr
    rw [hnid]
    apply activateFirst_eq_none
    intro t hmem
    rcases List.mem_or_eq_of_mem_set hmem with hmem' | rfl
    · obtain ⟨j, hj⟩ := List.mem_iff_getElem?.mp hmem'
      have hjlen : j < s.tasks.length := (List.getElem?_eq_some.mp hj).1
      rw [canonicalTasks_id hc hj]
      intro heq
      have := taskIdStr_inj heq
      omega
    · show ({ task with active := false } : TaskDom).id ≠ taskIdStr (i + 2)
      rw [show ({ task with active := false } : TaskDom).id = task.id from rfl, hid]
      intro heq
      have := taskIdStr_inj heq
      omega
  simp [handleNextButtonClick, ht, hnone]

/-- C10 (witness): advancing from the single task of a one-task page. -/
theorem advance_on_last_task_witness :
    handleNextButtonClick (freshState [demoTask1]) stEmpty 0
      = ({ freshState [demoTask1] with
            tasks := (freshState [demoTask1]).tasks.set 0 { demoTask1 with active := false } },
         stEmpty, true) :=
  advance_on_last_task (freshState [demoTask1]) stEmpty 0 demoTask1
    (by decide) (by decide) (by decide)
